/-
Verification of the memory-profiling engine in vprof/memory_profile.py.

This file gives a shallow embedding of the heap-census pipeline
(object deduplication, Counter arithmetic, display formatting), the
line-event coalescing pass of _CodeEventsTracker.code_events, and the
control flow of the four run modes of MemoryProfile (scoped tracer
acquisition, SystemExit handling, failure ordering), and proves or
refutes the spec claims about them.

Machine integers of the source are modelled as Int; the float values
`(mem - overhead) / 1048576` are modelled as exact rationals, which is
faithful because the numerator is an integer far below 2^53 and the
divisor is a power of two, so the Python float arithmetic is exact.
-/
import Mathlib

/-! ### Heap census: objects, deduplication, Counter arithmetic

A live Python object is modelled by its identity (`id(obj)`), the repr
string of its type (type identity is compared via this key), and
whether it is a stack frame (`inspect.isframe`). -/

structure PyObj where
  oid : Nat
  ty : String
  isFrame : Bool
deriving DecidableEq, Repr

/-- Embeds `_remove_duplicates`: keeps the first occurrence of each
object id, preserving order (seen-set plus output list). -/
def remove_duplicates (objects : List PyObj) : List PyObj :=
  (objects.foldl
    (fun (st : List Nat × List PyObj) obj =>
      if st.1.contains obj.oid then st
      else (obj.oid :: st.1, st.2 ++ [obj]))
    ([], [])).2

/-- Embeds `_process_in_memory_objects`: drops frame objects, then
deduplicates by identity. -/
def process_in_memory_objects (objects : List PyObj) : List PyObj :=
  remove_duplicates (objects.filter (fun o => !o.isFrame))

/-- A `collections.Counter` over type keys, modelled as an
insertion-ordered association list (Python dicts preserve insertion
order, and `Counter.items()` iterates in first-seen order). -/
abbrev TypeCensus := List (String × Int)

/-- Counter `__getitem__` (missing keys read as 0, nothing inserted). -/
def counterGet (c : TypeCensus) (k : String) : Int :=
  match c.find? (fun p => p.1 == k) with
  | some p => p.2
  | none => 0

/-- One step of building `Counter(map(type, objects))`: increment the
count of a type key in place, or append a fresh key at the end. -/
def counterAdd (acc : TypeCensus) (t : String) : TypeCensus :=
  if (acc.find? (fun p => p.1 == t)).isSome then
    acc.map (fun p => if p.1 == t then (p.1, p.2 + 1) else p)
  else acc ++ [(t, 1)]

/-- Embeds `_get_object_count_by_type`: `Counter(map(type, objects))`. -/
def get_object_count_by_type (objects : List PyObj) : TypeCensus :=
  objects.foldl (fun acc o => counterAdd acc o.ty) []

/-- Embeds `collections.Counter.__sub__` as used by the `-` operator
in the source: for each key of the left counter (in its order), keep
`left - right` only when it is strictly positive; then keys present
only in the right counter contribute only when their count is
negative there. Non-positive differences are dropped by this step. -/
def counterSub (c1 c2 : TypeCensus) : TypeCensus :=
  ((c1.map (fun p => (p.1, p.2 - counterGet c2 p.1))).filter
      (fun p => decide (0 < p.2)))
    ++ ((c2.filter
          (fun p => (c1.find? (fun q => q.1 == p.1)).isNone && decide (p.2 < 0))).map
        (fun p => (p.1, 0 - p.2)))

/-- Embeds `result_obj_count[k] -= 1`: dict `__getitem__` (0 when the
key is missing) followed by `__setitem__`, which updates the entry in
place or appends the key at the end. This is the only step of the
pipeline that can store a non-positive count. -/
def counterDecr (c : TypeCensus) (k : String) : TypeCensus :=
  if (c.find? (fun p => p.1 == k)).isSome then
    c.map (fun p => if p.1 == k then (p.1, p.2 - 1) else p)
  else c ++ [(k, counterGet c k - 1)]

/-- Embeds `_get_obj_count_difference(objs1, objs2)`: clean both
object lists, count by type, return `count1 - count2` (Counter `-`). -/
def get_obj_count_difference (objs1 objs2 : List PyObj) : TypeCensus :=
  counterSub
    (get_object_count_by_type (process_in_memory_objects objs1))
    (get_object_count_by_type (process_in_memory_objects objs2))

/-! ### The repr-matching regex of `_format_obj_count`

The source matches `repr(obj_type)` against the pattern
`<(?P<type>\w+) \'(?P<name>\S+)\'>` with `re.findall` and indexes
`match[0]` without a guard. We model the leftmost match of this
pattern over the character list of the repr string (`\w`/`\S` in
their ASCII reading, which covers the reprs the profiler meets). -/

def quoteChar : Char := Char.ofNat 39

def isWordChar (c : Char) : Bool := c.isAlphanum || c == '_'

def isSpaceChar (c : Char) : Bool :=
  c == ' ' || c == '\t' || c == '\n' || c == '\r' ||
  c == Char.ofNat 11 || c == Char.ofNat 12

/-- Greedy match of `(?P<name>\S+)\'>` with backtracking: prefer the
longest run of non-space characters that is still followed by a
quote and `>`. Returns the name characters and the remaining input. -/
def greedyName (acc : List Char) : List Char → Option (List Char × List Char)
  | [] => none
  | c :: rest =>
      if isSpaceChar c then none
      else
        match greedyName (acc ++ [c]) rest with
        | some r => some r
        | none =>
            match rest with
            | d :: rest2 =>
                if c == quoteChar && d == '>' && !acc.isEmpty then
                  some (acc, rest2)
                else none
            | [] => none

/-- Attempts to match `<\w+ \'\S+\'>` at the start of the input,
returning the two capture groups (type word, name). -/
def matchTypeRepr : List Char → Option (String × String)
  | '<' :: rest =>
      let word := rest.takeWhile isWordChar
      let rest2 := rest.dropWhile isWordChar
      if word.isEmpty then none
      else
        match rest2 with
        | ' ' :: q :: rest3 =>
            if q == quoteChar then
              match greedyName [] rest3 with
              | some (name, _) => some (String.mk word, String.mk name)
              | none => none
            else none
        | _ => none
  | _ => none

/-- Leftmost match of the pattern anywhere in the string: the capture
groups of `re.findall(regex, s)[0]`, or `none` when there is no
match (in the source this `match[0]` raises IndexError). -/
def firstTypeMatch : List Char → Option (String × String)
  | [] => none
  | c :: rest =>
      match matchTypeRepr (c :: rest) with
      | some r => some r
      | none => firstTypeMatch rest

/-! ### Display formatting (`_format_obj_count`) -/

/-- The loop of `_format_obj_count`: walk the census in order, keep
entries with a nonzero count as `(name group of match[0], count)`;
`none` models the unguarded `match[0]` raising on a repr with no
match. -/
def collectEntries : TypeCensus → Option (List (String × Int))
  | [] => some []
  | p :: rest =>
      if p.2 ≠ 0 then
        match firstTypeMatch p.1.data with
        | none => none
        | some m => (collectEntries rest).map (fun r => (m.2, p.2) :: r)
      else collectEntries rest

/-- Comes-before relation of `sorted(result, key=itemgetter(1),
reverse=True)`: an entry precedes another when its count is at least
as large. -/
def descCount (a b : String × Int) : Prop := b.2 ≤ a.2

instance : DecidableRel descCount := fun a b =>
  inferInstanceAs (Decidable (b.2 ≤ a.2))

instance : IsTotal (String × Int) descCount := ⟨fun a b => le_total b.2 a.2⟩

instance : IsTrans (String × Int) descCount :=
  ⟨fun _ _ _ h1 h2 => le_trans h2 h1⟩

/-- Python `sorted` is a stable sort; a stable sort is determined
uniquely by its comparator, so the stable insertion sort computes the
same list as the source's stable descending sort by count. -/
def sortDescByCount (l : List (String × Int)) : List (String × Int) :=
  List.insertionSort descCount l

/-- Embeds `_format_obj_count`: collect nonzero entries in census
order, then sort descending by count (stably). -/
def format_obj_count (obj_count : TypeCensus) : Option (List (String × Int)) :=
  (collectEntries obj_count).map sortDescByCount

/-- repr of the builtin list type, the key of the hardcoded
`result_obj_count[list] -= 1` correction. -/
def listRepr : String :=
  String.mk ['<', 'c', 'l', 'a', 's', 's', ' ', quoteChar,
             'l', 'i', 's', 't', quoteChar, '>']

/-- repr of the builtin int type, used as a concrete well-formed key. -/
def intRepr : String :=
  String.mk ['<', 'c', 'l', 'a', 's', 's', ' ', quoteChar,
             'i', 'n', 't', quoteChar, '>']

/-- A type repr that the formatting regex does not match (for example
a metaclass with a custom repr that omits the quoted name). -/
def badRepr : String := "<class Foo>"

/-- Embeds the objectsCount part of `MemoryProfile.run`:
`new_obj_count = _get_obj_count_difference(new_objects, existing_objects)`;
`result_obj_count = new_obj_count - prof.obj_overhead`;
`result_obj_count[list] -= 1`;
`pretty_obj_count = _format_obj_count(result_obj_count)`. -/
def run_objects_count (existing_objects new_objects : List PyObj)
    (obj_overhead : TypeCensus) : Option (List (String × Int)) :=
  let new_obj_count := get_obj_count_difference new_objects existing_objects
  let result_obj_count := counterSub new_obj_count obj_overhead
  let corrected := counterDecr result_obj_count listRepr
  format_obj_count corrected

/-! ### The tracer's event log and the `code_events` property

A raw event appended by `_trace_memory_usage` is the tuple
`(frame.f_lineno, curr_memory, frame.f_code.co_name,
frame.f_code.co_filename)`.  The coalesced events built by
`code_events` are Python lists `[i + 1, lineno, mem_in_mb, func,
fname]` whose cells hold values of different Python types; the merge
condition compares cells across types (`==` between a float and a str
is `False` in Python, never an error, and `<` between int and float
compares numerically), so cells are modelled by a Python-value type
with Python's cross-type `==` and `<`. -/

structure RawEvent where
  lineno : Int
  mem : Int
  func : String
  fname : String
deriving DecidableEq, Repr

inductive PyVal where
  | int : Int → PyVal
  | float : ℚ → PyVal
  | str : String → PyVal
deriving DecidableEq, Repr

/-- Python `==` between cell values: numeric values compare
numerically across int/float; values of unrelated types are unequal. -/
def pyEq : PyVal → PyVal → Bool
  | PyVal.int a, PyVal.int b => decide (a = b)
  | PyVal.int a, PyVal.float b => decide ((a : ℚ) = b)
  | PyVal.float a, PyVal.int b => decide (a = (b : ℚ))
  | PyVal.float a, PyVal.float b => decide (a = b)
  | PyVal.str a, PyVal.str b => decide (a = b)
  | _, _ => false

/-- Python `<` between cell values as the source can reach it:
numeric comparison across int/float, string comparison on strings
(the source only ever compares a number with a float here). -/
def pyLt : PyVal → PyVal → Bool
  | PyVal.int a, PyVal.int b => decide (a < b)
  | PyVal.int a, PyVal.float b => decide ((a : ℚ) < b)
  | PyVal.float a, PyVal.int b => decide (a < (b : ℚ))
  | PyVal.float a, PyVal.float b => decide (a < b)
  | PyVal.str a, PyVal.str b => decide (a < b)
  | _, _ => false

/-- Cell access `event[i]` on a coalesced-event list. -/
def pyGet (l : List PyVal) (i : Nat) : PyVal := l.getD i (PyVal.int 0)

/-- `float(mem - self.mem_overhead) / _BYTES_IN_MB`, exact here. -/
def mem_in_mb (overhead mem : Int) : ℚ :=
  ((mem : ℚ) - (overhead : ℚ)) / 1048576

/-- One iteration of the loop in `code_events`, transcribed cell for
cell: the merge condition reads `last[0] == lineno`, `last[2] ==
func`, `last[3] == fname`, `last[1] < mem_in_mb` and the in-place
update writes `last[1] = mem_in_mb`; otherwise the event
`[i + 1, lineno, mem_in_mb, func, fname]` is appended. -/
def code_events_step (acc : List (List PyVal)) (i : Nat) (e : RawEvent)
    (m : ℚ) : List (List PyVal) :=
  match acc.getLast? with
  | some last =>
      if pyEq (pyGet last 0) (PyVal.int e.lineno) &&
         pyEq (pyGet last 2) (PyVal.str e.func) &&
         pyEq (pyGet last 3) (PyVal.str e.fname) &&
         pyLt (pyGet last 1) (PyVal.float m) then
        acc.dropLast ++ [last.set 1 (PyVal.float m)]
      else
        acc ++ [[PyVal.int ((i : Int) + 1), PyVal.int e.lineno,
                 PyVal.float m, PyVal.str e.func, PyVal.str e.fname]]
  | none =>
      acc ++ [[PyVal.int ((i : Int) + 1), PyVal.int e.lineno,
               PyVal.float m, PyVal.str e.func, PyVal.str e.fname]]

/-- The `for i, (lineno, mem, func, fname) in enumerate(...)` loop of
`code_events`, appending into `self._resulting_events`. -/
def code_events_loop (overhead : Int) :
    Nat → List RawEvent → List (List PyVal) → List (List PyVal)
  | _, [], acc => acc
  | i, e :: rest, acc =>
      code_events_loop overhead (i + 1) rest
        (code_events_step acc i e (mem_in_mb overhead e.mem))

/-- Tracker state relevant to `code_events`: the raw event log, the
stored `_resulting_events` list, and `mem_overhead`. A fresh tracker
has `resulting_events = []`. -/
structure TracerState where
  events_list : List RawEvent
  resulting_events : List (List PyVal)
  mem_overhead : Int
deriving DecidableEq, Repr

/-- Embeds the `code_events` property: return the stored list when it
is non-empty (Python truthiness), otherwise run the loop and store the
result.  The final component records whether the loop branch executed
on this read, making recomputation observable. -/
def code_events (s : TracerState) :
    List (List PyVal) × TracerState × Bool :=
  if s.resulting_events.isEmpty then
    let r := code_events_loop s.mem_overhead 0 s.events_list
      s.resulting_events
    (r, { s with resulting_events := r }, true)
  else (s.resulting_events, s, false)

/-! ### Run modes, the tracer scope and failure propagation

The control flow of `run_as_module`, `run_as_package_path`,
`run_as_package_in_namespace` and `run_as_function` is embedded in a
state-and-exceptions monad over the process state: the currently
installed `sys.settrace` hook and a log of the actions performed, in
order.  Target behaviour (complete, raise SystemExit, raise another
error) and loadability of the target are parameters. -/

inductive HookV where
  | noHook
  | tracerHook (id : Nat)
  | foreignHook (id : Nat)
deriving DecidableEq, Repr

inductive Exn where
  | sysExit
  | targetError
  | openError
  | compileError
deriving DecidableEq, Repr

inductive Act where
  | openFile
  | installHook
  | compileCode
  | addCode
  | computeOverhead
  | execTarget
  | restoreHook
deriving DecidableEq, Repr

inductive Outcome where
  | normal
  | sysExit
  | err
deriving DecidableEq, Repr

structure Proc where
  hook : HookV
  acts : List Act
deriving DecidableEq, Repr

/-- A Python computation over process state: result or uncaught
exception, plus the updated state. -/
def Eff (α : Type) : Type := Proc → Except Exn α × Proc

def effBind {α β : Type} (m : Eff α) (f : α → Eff β) : Eff β := fun s =>
  match m s with
  | (Except.ok a, s1) => f a s1
  | (Except.error e, s1) => (Except.error e, s1)

def emit (a : Act) : Eff Unit := fun s =>
  (Except.ok (), { s with acts := s.acts ++ [a] })

def gettrace : Eff HookV := fun s => (Except.ok s.hook, s)

def throwE {α : Type} (e : Exn) : Eff α := fun s => (Except.error e, s)

/-- An `except SystemExit: pass` handler around a block: a SystemExit
result is replaced by normal completion, any other outcome passes
through. -/
def catchSysExit {α : Type} (body : Eff α) (dflt : α) : Eff α := fun s =>
  match body s with
  | (Except.error Exn.sysExit, s1) => (Except.ok dflt, s1)
  | other => other

/-- Embeds `with _CodeEventsTracker() as prof:` around a body:
`__init__` captures `sys.gettrace()`, `__enter__` installs
`_trace_memory_usage`, and `__exit__` unconditionally restores the
captured hook; `__exit__` returns None, so the body's exception (if
any) is re-raised afterwards. -/
def withTracker {α : Type} (id : Nat) (body : Eff α) : Eff α := fun s =>
  match body (Proc.mk (HookV.tracerHook id) (s.acts ++ [Act.installHook])) with
  | (r, s2) => (r, Proc.mk s.hook (s2.acts ++ [Act.restoreHook]))

/-- `open(self._run_object, 'rb')`: raises when the file cannot be
opened. -/
def openSrcFile (ok : Bool) : Eff Unit :=
  effBind (emit Act.openFile)
    (fun _ => if ok then fun s => (Except.ok (), s) else throwE Exn.openError)

/-- `compile(srcfile.read(), self._run_object, 'exec')`: raises when
the source does not compile. -/
def compileSrc (ok : Bool) : Eff Unit :=
  effBind (emit Act.compileCode)
    (fun _ => if ok then fun s => (Except.ok (), s) else throwE Exn.compileError)

/-- Modelled from the spec: `base_profile.get_package_code` is not
under src/; per the spec it loads and compiles the package's code
units and fails when the target cannot be loaded or compiled, before
any tracer exists. -/
def getPackageCode (ok : Bool) : Eff Unit :=
  effBind (emit Act.compileCode)
    (fun _ => if ok then fun s => (Except.ok (), s) else throwE Exn.compileError)

/-- Running the target: it completes, raises SystemExit, or raises
some other error. -/
def execTarget (o : Outcome) : Eff Unit :=
  effBind (emit Act.execTarget)
    (fun _ =>
      match o with
      | Outcome.normal => fun s => (Except.ok (), s)
      | Outcome.sysExit => throwE Exn.sysExit
      | Outcome.err => throwE Exn.targetError)

/-- Embeds `MemoryProfile.run_as_module`: the whole body, open
included, sits inside `try ... except SystemExit: pass`; the file is
opened before the tracker is entered, but `compile` runs inside the
tracker scope. -/
def run_as_module (openOk compileOk : Bool) (o : Outcome) : Eff Unit :=
  catchSysExit
    (effBind (openSrcFile openOk)
      (fun _ =>
        withTracker 1
          (effBind (compileSrc compileOk)
            (fun _ =>
              effBind (emit Act.addCode)
                (fun _ =>
                  effBind (emit Act.computeOverhead)
                    (fun _ => execTarget o))))))
    ()

/-- Embeds `MemoryProfile.run_as_package_path`: package code is
compiled before the tracker, and only `compute_mem_overhead` plus
`runpy.run_path` sit inside `try ... except SystemExit: pass`. -/
def run_as_package_path (pkgOk : Bool) (o : Outcome) : Eff Unit :=
  effBind (getPackageCode pkgOk)
    (fun _ =>
      withTracker 1
        (effBind (emit Act.addCode)
          (fun _ =>
            catchSysExit
              (effBind (emit Act.computeOverhead)
                (fun _ => execTarget o))
              ())))

/-- Embeds `MemoryProfile.run_as_package_in_namespace`, which has the
same control flow as the path variant around `runpy.run_module`. -/
def run_as_package_in_namespace (pkgOk : Bool) (o : Outcome) : Eff Unit :=
  effBind (getPackageCode pkgOk)
    (fun _ =>
      withTracker 1
        (effBind (emit Act.addCode)
          (fun _ =>
            catchSysExit
              (effBind (emit Act.computeOverhead)
                (fun _ => execTarget o))
              ())))

/-- Embeds `MemoryProfile.run_as_function`: no SystemExit handler at
all — the body runs directly inside the tracker scope. -/
def run_as_function (o : Outcome) : Eff Unit :=
  withTracker 1
    (effBind (emit Act.addCode)
      (fun _ =>
        effBind (emit Act.computeOverhead)
          (fun _ => execTarget o)))

/-! ### Helper lemmas about the census pipeline -/

/-- Every entry produced by a Counter subtraction has a strictly
positive count: non-positive differences are dropped at the
subtraction itself. -/
theorem counterSub_pos (c1 c2 : TypeCensus) :
    ∀ p ∈ counterSub c1 c2, 0 < p.2 := by
  intro p hp
  unfold counterSub at hp
  rcases List.mem_append.mp hp with h | h
  · have h2 := (List.mem_filter.mp h).2
    simpa using h2
  · rcases List.mem_map.mp h with ⟨q, hq, hpq⟩
    have h2 := (List.mem_filter.mp hq).2
    rw [Bool.and_eq_true] at h2
    have hneg : q.2 < 0 := by simpa using h2.2
    rw [← hpq]
    simpa using hneg

/-- If the key is absent, Counter `__getitem__` reads 0. -/
theorem counterGet_eq_zero_of_none (c : TypeCensus) (k : String)
    (h : c.find? (fun p => p.1 == k) = none) : counterGet c k = 0 := by
  unfold counterGet
  rw [h]

/-- With distinct keys and positive counts, a negative entry of the
decremented census can only be the appended correction `(k, -1)`. -/
theorem counterDecr_neg_eq (c : TypeCensus) (k : String)
    (hpos : ∀ q ∈ c, 0 < q.2) :
    ∀ p ∈ counterDecr c k, p.2 < 0 → p = (k, -1) := by
  intro p hp hneg
  unfold counterDecr at hp
  by_cases hf : (c.find? (fun p => p.1 == k)).isSome
  · rw [if_pos hf] at hp
    rcases List.mem_map.mp hp with ⟨q, hq, hpq⟩
    have hqpos := hpos q hq
    by_cases hk : q.1 == k
    · rw [if_pos hk] at hpq
      rw [← hpq] at hneg
      simp at hneg
      omega
    · rw [if_neg hk] at hpq
      rw [← hpq] at hneg
      omega
  · rw [if_neg hf] at hp
    rcases List.mem_append.mp hp with h | h
    · have := hpos p h
      omega
    · have hpk : p = (k, counterGet c k - 1) := by simpa using h
      have h0 : counterGet c k = 0 := by
        apply counterGet_eq_zero_of_none
        cases hfind : List.find? (fun p => p.1 == k) c with
        | none => rfl
        | some q => rw [hfind] at hf; simp at hf
      rw [hpk, h0]
      norm_num

/-- Every entry of a successfully collected formatting result comes
from a census entry with the same (nonzero) count whose repr matched
the pattern, the entry's name being the name group of the first
match. -/
theorem collectEntries_mem (c : TypeCensus) (mid : List (String × Int))
    (h : collectEntries c = some mid) :
    ∀ p ∈ mid, ∃ q ∈ c, q.2 ≠ 0 ∧ p.2 = q.2 ∧
      ∃ w, firstTypeMatch q.1.data = some (w, p.1) := by
  induction c generalizing mid with
  | nil =>
      intro p hp
      unfold collectEntries at h
      rw [← Option.some_inj.mp h] at hp
      simp at hp
  | cons q rest ih =>
      intro p hp
      unfold collectEntries at h
      by_cases hq : q.2 ≠ 0
      · rw [if_pos hq] at h
        cases hm : firstTypeMatch q.1.data with
        | none => rw [hm] at h; simp at h
        | some m =>
            rw [hm] at h
            rcases Option.map_eq_some'.mp h with ⟨r, hr, hmid⟩
            rw [← hmid] at hp
            rcases List.mem_cons.mp hp with hpq | hp2
            · refine ⟨q, List.mem_cons_self q rest, hq, ?_, m.1, ?_⟩
              · rw [hpq]
              · rw [hm, hpq]
            · rcases ih r hr p hp2 with ⟨q2, hq2, hq20, hpq2, w, hw⟩
              exact ⟨q2, List.mem_cons_of_mem q hq2, hq20, hpq2, w, hw⟩
      · rw [if_neg hq] at h
        rcases ih mid h p hp with ⟨q2, hq2, hq20, hpq2, w, hw⟩
        exact ⟨q2, List.mem_cons_of_mem q hq2, hq20, hpq2, w, hw⟩

/-- With distinct keys, Counter lookup of a present pair returns its
stored count. -/
theorem counterGet_of_mem (c : TypeCensus) (hnd : (c.map Prod.fst).Nodup)
    {k : String} {v : Int} (hm : (k, v) ∈ c) : counterGet c k = v := by
  induction c with
  | nil => simp at hm
  | cons a t ih =>
      rcases List.mem_cons.mp hm with hak | hm2
      · unfold counterGet
        rw [← hak]
        simp [List.find?]
      · have hk : k ∈ t.map Prod.fst := by
          exact List.mem_map.mpr ⟨(k, v), hm2, rfl⟩
        have hnd' : a.1 ∉ t.map Prod.fst ∧ (t.map Prod.fst).Nodup := by
          rw [List.map_cons, List.nodup_cons] at hnd
          exact hnd
        have ha : (a.1 == k) = false := by
          rw [beq_eq_false_iff_ne]
          intro hc
          rw [hc] at hnd'
          exact hnd'.1 hk
        unfold counterGet
        simp only [List.find?, ha]
        exact ih hnd'.2 hm2

/-- Inserting an entry into a list places it before exactly the
entries with strictly larger counts, so filtering by any fixed count
either prepends the entry (its own count) or leaves the filter
unchanged. This is the stability of the sort. -/
theorem filter_orderedInsert (c : Int) (a : String × Int) :
    ∀ l : List (String × Int),
      (List.orderedInsert descCount a l).filter (fun p => p.2 == c) =
        if (a.2 == c) = true then a :: l.filter (fun p => p.2 == c)
        else l.filter (fun p => p.2 == c) := by
  intro l
  induction l with
  | nil =>
      by_cases hac : (a.2 == c) = true
      · simp [List.orderedInsert, List.filter, hac]
      · rw [Bool.not_eq_true] at hac
        simp [List.orderedInsert, List.filter, hac]
  | cons b t ih =>
      by_cases hr : descCount a b
      · rw [List.orderedInsert_of_le _ _ hr]
        by_cases hac : (a.2 == c) = true
        · simp [List.filter, hac]
        · rw [if_neg hac]
          rw [Bool.not_eq_true] at hac
          simp [List.filter, hac]
      · have hblt : a.2 < b.2 := by
          unfold descCount at hr
          omega
        unfold List.orderedInsert
        rw [if_neg hr]
        by_cases hac : (a.2 == c) = true
        · have hbc : (b.2 == c) = false := by
            rw [beq_iff_eq] at hac
            rw [beq_eq_false_iff_ne]
            omega
          rw [if_pos hac]
          simp only [List.filter, hbc]
          rw [ih, if_pos hac]
        · rw [if_neg hac]
          rw [Bool.not_eq_true] at hac
          by_cases hbc : (b.2 == c) = true
          · simp only [List.filter, hbc]
            rw [ih, if_neg (by rw [hac]; exact Bool.false_ne_true)]
          · rw [Bool.not_eq_true] at hbc
            simp only [List.filter, hbc, hac]
            rw [ih, if_neg (by rw [hac]; exact Bool.false_ne_true)]

/-- The stable descending sort preserves, for each count value, the
relative order of the entries carrying that count. -/
theorem filter_sortDescByCount (c : Int) :
    ∀ l : List (String × Int),
      (sortDescByCount l).filter (fun p => p.2 == c) =
        l.filter (fun p => p.2 == c) := by
  intro l
  induction l with
  | nil => rfl
  | cons a t ih =>
      show (List.orderedInsert descCount a
          (List.insertionSort descCount t)).filter (fun p => p.2 == c) = _
      rw [filter_orderedInsert]
      by_cases hac : (a.2 == c) = true
      · rw [if_pos hac]
        simp only [List.filter, hac]
        rw [← ih]
        rfl
      · rw [if_neg hac]
        rw [Bool.not_eq_true] at hac
        simp only [List.filter, hac]
        rw [← ih]
        rfl

/-- A census entry with a nonzero count whose repr has no match makes
the collection loop raise (the unguarded `match[0]`). -/
theorem collectEntries_none (census : TypeCensus) (p : String × Int)
    (hp : p ∈ census) (hnz : p.2 ≠ 0)
    (hm : firstTypeMatch p.1.data = none) :
    collectEntries census = none := by
  induction census with
  | nil => simp at hp
  | cons q rest ih =>
      rcases List.mem_cons.mp hp with hpq | hp2
      · unfold collectEntries
        rw [← hpq, if_pos hnz, hm]
      · unfold collectEntries
        by_cases hq : q.2 ≠ 0
        · rw [if_pos hq]
          cases hm2 : firstTypeMatch q.1.data with
          | none => rfl
          | some m => rw [ih hp2]; rfl
        · rw [if_neg hq]
          exact ih hp2

/-! ### Claim theorems -/

/-- Two consecutive raw events at the same source location
`(lineno = 1, func = "f", fname = "a.py")`, with corrected values
1.0 MB then 2.0 MB. -/
def c1Events : List RawEvent :=
  [⟨1, 2097152, "f", "a.py"⟩, ⟨1, 3145728, "f", "a.py"⟩]

/-- C1 (code bug): the claim — one CoalescedEvent per maximal run of
consecutive same-location raw events, holding the maximum corrected
value — states the evident intent of the merge condition, but the
condition indexes the wrong cells of the stored event
(`last[0] == lineno` compares the sequence index with the line
number, and `last[2] == func` compares the float memory value with
the unit name, which is always False in Python), so no merge ever
happens: the two same-location raw events of `c1Events` produce two
CoalescedEvents instead of one event with value 2.0. -/
theorem c1_no_coalescing_on_increasing_run :
    (code_events ⟨c1Events, [], 1048576⟩).1 =
      [[PyVal.int 1, PyVal.int 1, PyVal.float 1,
        PyVal.str "f", PyVal.str "a.py"],
       [PyVal.int 2, PyVal.int 1, PyVal.float 2,
        PyVal.str "f", PyVal.str "a.py"]] := by
  norm_num [c1Events, code_events, code_events_loop, code_events_step,
    mem_in_mb, pyEq, pyLt, pyGet]

/-- C2 (amended): `objectsCount` never contains an entry with count
exactly 0, and the only possible entry with a negative count is the
`("list", -1)` entry produced when the hardcoded
`result_obj_count[list] -= 1` correction is applied to a census in
which the list type is absent; formatting drops only counts equal
to 0, not all counts ≤ 0. -/
theorem c2_objects_count_entries (existing_objects new_objects : List PyObj)
    (ovh : TypeCensus) (out : List (String × Int))
    (h : run_objects_count existing_objects new_objects ovh = some out) :
    ∀ p ∈ out, p.2 ≠ 0 ∧ (p.2 < 0 → p = ("list", -1)) := by
  intro p hp
  unfold run_objects_count format_obj_count at h
  rcases Option.map_eq_some'.mp h with ⟨mid, hmid, hout⟩
  rw [← hout] at hp
  have hpm : p ∈ mid :=
    ((List.perm_insertionSort descCount mid).mem_iff).mp hp
  rcases collectEntries_mem _ _ hmid p hpm with ⟨q, hq, hq0, hpq, w, hw⟩
  constructor
  · rw [hpq]; exact hq0
  · intro hneg
    have hqneg : q.2 < 0 := by rw [← hpq]; exact hneg
    have hq2 := counterDecr_neg_eq _ listRepr
      (counterSub_pos _ _) q hq hqneg
    rw [hq2] at hw hpq
    have hlist : firstTypeMatch listRepr.data = some ("class", "list") := by
      decide
    have hw3 : some ("class", "list") = some (w, p.1) := by
      rw [← hlist]
      exact hw
    have hpair := Option.some_inj.mp hw3
    have hname : p.1 = "list" := (congrArg Prod.snd hpair).symm
    have hval : p.2 = -1 := hpq
    calc p = (p.1, p.2) := rfl
      _ = ("list", -1) := by rw [hname, hval]

/-- C2 is false as stated: a run whose census chain leaves the list
type with a net count of 0 before the hardcoded `[list] -= 1`
correction produces an `objectsCount` containing `("list", -1)`, an
entry with count ≤ 0 (formatting drops only counts equal to 0). -/
theorem c2_counterexample :
    run_objects_count [⟨1, listRepr, false⟩]
        [⟨1, listRepr, false⟩, ⟨2, listRepr, false⟩] [(listRepr, 1)]
      = some [("list", -1)] ∧ (-1 : Int) ≤ 0 := by
  decide

/-- Concrete inputs for the C2 witness. -/
def c2New : List PyObj := [⟨1, intRepr, false⟩]

theorem c2_witness :
    run_objects_count [] c2New [] =
      some [("int", 1), ("list", -1)] ∧
    (("int", (1 : Int)).2 ≠ 0 ∧
      (("int", (1 : Int)).2 < 0 → ("int", (1 : Int)) = ("list", -1))) :=
  ⟨by decide,
   c2_objects_count_entries [] c2New [] [("int", 1), ("list", -1)]
     (by decide) ("int", 1) (by decide)⟩

/-- C3 (amended): the Counter subtraction used for both the
before/after diff and the overhead subtraction keeps only strictly
positive entries — a key whose difference is ≤ 0 is dropped at that
very step and reads back as 0, so signed (non-positive) intermediate
counts are not preserved to the formatting boundary; the only signed
step in the chain is the final hardcoded list decrement. -/
theorem c3_diff_clamps_each_step (c1 c2 : TypeCensus) (k : String)
    (hnd : (c1.map Prod.fst).Nodup) (h2 : ∀ p ∈ c2, 0 ≤ p.2)
    (hk : counterGet c1 k - counterGet c2 k ≤ 0) :
    (∀ p ∈ counterSub c1 c2, 0 < p.2) ∧
    counterGet (counterSub c1 c2) k = 0 := by
  refine ⟨counterSub_pos c1 c2, ?_⟩
  apply counterGet_eq_zero_of_none
  rw [List.find?_eq_none]
  intro x hx
  rw [Bool.not_eq_true, beq_eq_false_iff_ne]
  intro hxk
  unfold counterSub at hx
  rcases List.mem_append.mp hx with h | h
  · rcases List.mem_filter.mp h with ⟨hmem, hpos⟩
    rcases List.mem_map.mp hmem with ⟨q, hq, hqx⟩
    have hq1 : q.1 = k := by rw [← hxk, ← hqx]
    have hqv : counterGet c1 k = q.2 := by
      rw [← hq1]
      exact counterGet_of_mem c1 hnd hq
    have hx2 : x.2 = q.2 - counterGet c2 q.1 := by rw [← hqx]
    rw [hq1] at hx2
    rw [← hqv] at hx2
    have : (0 : Int) < x.2 := by simpa using hpos
    omega
  · rcases List.mem_map.mp h with ⟨q, hq, hqx⟩
    rcases List.mem_filter.mp hq with ⟨hmem, hcond⟩
    rw [Bool.and_eq_true] at hcond
    have hqneg : q.2 < 0 := by simpa using hcond.2
    have := h2 q hmem
    omega

/-- C3 is false as stated: with one int object after and two before,
the code's diff is the empty census (lookup 0), not the signed
elementwise value −1 — the negative intermediate count is lost at
the diff step itself, not at the formatting boundary. -/
theorem c3_counterexample :
    get_obj_count_difference [⟨1, intRepr, false⟩]
        [⟨2, intRepr, false⟩, ⟨3, intRepr, false⟩] = [] ∧
    counterGet (get_object_count_by_type
        (process_in_memory_objects [⟨1, intRepr, false⟩])) intRepr -
      counterGet (get_object_count_by_type
        (process_in_memory_objects [⟨2, intRepr, false⟩, ⟨3, intRepr, false⟩]))
        intRepr = -1 := by
  decide

theorem c3_witness :
    counterGet (counterSub [(intRepr, 1)] [(intRepr, 2)]) intRepr = 0 :=
  (c3_diff_clamps_each_step [(intRepr, 1)] [(intRepr, 2)] intRepr
    (by decide) (by decide) (by decide)).2

/-- C4 is false as stated: in function mode the target's termination
request (`SystemExit`) is not caught — `run_as_function` has no
`except SystemExit` handler, so the signal propagates to the caller
instead of being treated as normal completion. -/
theorem c4_counterexample :
    (run_as_function Outcome.sysExit ⟨HookV.noHook, []⟩).1 =
      Except.error Exn.sysExit := rfl

/-- C4 (amended): a termination request is treated as normal
completion in module mode, file-path-package mode, and
namespace-package mode, whose bodies sit in `except SystemExit: pass`
handlers; in function mode it propagates to the caller, after the
tracer scope has restored the execution hook. -/
theorem c4_sysexit_by_mode (s : Proc) :
    (run_as_module true true Outcome.sysExit s).1 = Except.ok () ∧
    (run_as_package_path true Outcome.sysExit s).1 = Except.ok () ∧
    (run_as_package_in_namespace true Outcome.sysExit s).1 = Except.ok () ∧
    (run_as_function Outcome.sysExit s).1 = Except.error Exn.sysExit ∧
    (run_as_function Outcome.sysExit s).2.hook = s.hook :=
  ⟨rfl, rfl, rfl, rfl, rfl⟩

theorem c4_witness :
    (run_as_module true true Outcome.sysExit ⟨HookV.foreignHook 5, []⟩).1 =
      Except.ok () :=
  (c4_sysexit_by_mode ⟨HookV.foreignHook 5, []⟩).1

/-- C5: the tracer scope restores the execution hook captured at the
tracker's creation on every exit path, and the body's own outcome —
normal result or raised exception — is passed through unchanged, so
genuine target errors are never swallowed. The body is arbitrary and
may itself have changed the hook. -/
theorem c5_tracker_restores_and_reraises {α : Type} (id : Nat)
    (body : Eff α) (s : Proc) :
    ((withTracker id body) s).2.hook = s.hook ∧
    ((withTracker id body) s).1 =
      (body (Proc.mk (HookV.tracerHook id) (s.acts ++ [Act.installHook]))).1 := by
  unfold withTracker
  rcases body (Proc.mk (HookV.tracerHook id) (s.acts ++ [Act.installHook]))
    with ⟨r, s2⟩
  exact ⟨rfl, rfl⟩

theorem c5_witness :
    ((withTracker 1 (execTarget Outcome.err)) ⟨HookV.foreignHook 7, []⟩).2.hook
      = HookV.foreignHook 7 :=
  (c5_tracker_restores_and_reraises 1 (execTarget Outcome.err)
    ⟨HookV.foreignHook 7, []⟩).1

/-- C6 is false as stated: entering a second tracer scope while one
is active is not rejected — `__enter__` is a bare `sys.settrace`
call with no single-active-tracer check, so the inner scope simply
succeeds (result `ok`, observing the second tracer's hook installed),
and no tracer-already-active failure exists anywhere in the code. -/
theorem c6_counterexample :
    ((withTracker 1 (withTracker 2 gettrace)) ⟨HookV.noHook, []⟩).1 =
      Except.ok (HookV.tracerHook 2) ∧
    ((withTracker 1 (withTracker 2 gettrace)) ⟨HookV.noHook, []⟩).2.hook =
      HookV.noHook :=
  ⟨rfl, rfl⟩

/-- C6 (amended): a second tracer scope entered while one is active
silently replaces the process trace hook with the second tracer's
hook; no failure is raised, and on exit each scope restores the hook
its tracker captured at creation, so the outermost hook is restored
at the end. -/
theorem c6_second_enter_not_rejected (s : Proc) (id1 id2 : Nat) :
    ((withTracker id1 (withTracker id2 gettrace)) s).1 =
      Except.ok (HookV.tracerHook id2) ∧
    ((withTracker id1 (withTracker id2 gettrace)) s).2.hook = s.hook :=
  ⟨rfl, rfl⟩

theorem c6_witness :
    ((withTracker 3 (withTracker 4 gettrace)) ⟨HookV.foreignHook 9, []⟩).2.hook
      = HookV.foreignHook 9 :=
  (c6_second_enter_not_rejected ⟨HookV.foreignHook 9, []⟩ 3 4).2

/-- C8 is false as stated: in module mode the compilation step runs
inside the tracer scope — the recorded action sequence shows the
hook installed strictly before the failing compile — so a
compilation failure does not surface before tracer state is touched
(the hook is restored only during the unwind). -/
theorem c8_counterexample :
    (run_as_module true false Outcome.normal ⟨HookV.noHook, []⟩).1 =
      Except.error Exn.compileError ∧
    (run_as_module true false Outcome.normal ⟨HookV.noHook, []⟩).2.acts =
      [Act.openFile, Act.installHook, Act.compileCode, Act.restoreHook] :=
  ⟨rfl, rfl⟩

/-- C8 (amended): failures to open the module file and failures to
load or compile a package surface before any tracer exists (no hook
action is recorded); but a module-mode compilation failure surfaces
only after the tracer's hook has been installed, with the hook
restored during the unwind. -/
theorem c8_fail_fast_by_mode (s : Proc) (compileOk : Bool) (o : Outcome) :
    ((run_as_module false compileOk o s).1 = Except.error Exn.openError ∧
      (run_as_module false compileOk o s).2.acts = s.acts ++ [Act.openFile]) ∧
    ((run_as_package_path false o s).1 = Except.error Exn.compileError ∧
      (run_as_package_path false o s).2.acts = s.acts ++ [Act.compileCode]) ∧
    ((run_as_module true false o s).1 = Except.error Exn.compileError ∧
      (run_as_module true false o s).2.hook = s.hook ∧
      (run_as_module true false o s).2.acts =
        s.acts ++ [Act.openFile, Act.installHook, Act.compileCode,
          Act.restoreHook]) := by
  refine ⟨⟨rfl, rfl⟩, ⟨rfl, rfl⟩, rfl, rfl, ?_⟩
  show ((s.acts ++ [Act.openFile]) ++ [Act.installHook] ++ [Act.compileCode])
      ++ [Act.restoreHook] = _
  simp

theorem c8_witness :
    (run_as_package_path false Outcome.normal
        ⟨HookV.noHook, [Act.execTarget]⟩).2.acts =
      [Act.execTarget] ++ [Act.compileCode] :=
  (c8_fail_fast_by_mode ⟨HookV.noHook, [Act.execTarget]⟩ true
    Outcome.normal).2.1.2

/-- C7 (amended): two successive reads of `code_events` always
return equal results, and the coalescing pass is skipped on the
second read whenever the first read produced a non-empty result
(equivalently, whenever the raw log is non-empty); memoization is
keyed on the truthiness of the stored list, so with an empty raw log
the (vacuous) pass runs again on every read. -/
theorem c7_code_events_memoization (s : TracerState) :
    (code_events (code_events s).2.1).1 = (code_events s).1 ∧
    ((code_events s).1 ≠ [] →
      (code_events (code_events s).2.1).2.2 = false) := by
  unfold code_events
  by_cases h : s.resulting_events.isEmpty
  · rw [if_pos h]
    by_cases h2 : (code_events_loop s.mem_overhead 0 s.events_list
        s.resulting_events).isEmpty
    · have hse : s.resulting_events = [] := by
        rw [← List.isEmpty_iff]
        exact h
      have hre : code_events_loop s.mem_overhead 0 s.events_list
          s.resulting_events = [] := by
        rw [← List.isEmpty_iff]
        exact h2
      constructor
      · simp only [hse, hre]
        rw [if_pos]
        · simp [hse] at hre
          simp [hre]
        · simp
          rw [hse] at hre
          exact hre
      · intro hne
        exact absurd hre hne
    · constructor
      · simp only []
        rw [if_neg (by simpa using h2)]
      · intro hne
        simp only []
        rw [if_neg (by simpa using h2)]
  · rw [if_neg h]
    constructor
    · rw [if_neg h]
    · intro hne
      rw [if_neg h]

/-- C7 is false as stated: for the empty raw event log, the stored
result stays empty after the first read, so the second read runs the
coalescing pass again (the recomputation component is true) instead
of returning a cached result without recomputation. -/
theorem c7_counterexample :
    (code_events (code_events ⟨[], [], 0⟩).2.1).2.2 = true := rfl

/-- A fresh tracker with a single raw event, for the C7 witness. -/
def c7State : TracerState := ⟨[⟨3, 4194304, "g", "b.py"⟩], [], 0⟩

theorem c7_witness :
    (code_events c7State).1 ≠ [] ∧
    (code_events (code_events c7State).2.1).2.2 = false := by
  have hne : (code_events c7State).1 ≠ [] := by
    norm_num [c7State, code_events, code_events_loop, code_events_step,
      mem_in_mb, pyEq, pyLt, pyGet]
  exact ⟨hne, (c7_code_events_memoization c7State).2 hne⟩

/-- C9: on a census the formatter accepts, the returned objectsCount
is the stable descending sort of the collected entries: it is sorted
descending by count, and for every count value the entries carrying
that count appear in exactly their original first-seen order. -/
theorem c9_sorted_stable (census : TypeCensus) (mid : List (String × Int))
    (h : collectEntries census = some mid) :
    format_obj_count census = some (sortDescByCount mid) ∧
    List.Sorted descCount (sortDescByCount mid) ∧
    ∀ c : Int, (sortDescByCount mid).filter (fun p => p.2 == c) =
      mid.filter (fun p => p.2 == c) := by
  refine ⟨?_, ?_, ?_⟩
  · unfold format_obj_count
    rw [h]
    rfl
  · exact List.sorted_insertionSort descCount mid
  · intro c
    exact filter_sortDescByCount c mid

/-- Census for the C9 witness: two entries tie at count 1 with an
entry of count 2 between them, exercising both ordering and
stability. -/
def c9Census : TypeCensus := [(intRepr, 1), (listRepr, 2), (intRepr, 1)]

def c9Mid : List (String × Int) := [("int", 1), ("list", 2), ("int", 1)]

theorem c9_witness :
    collectEntries c9Census = some c9Mid ∧
    format_obj_count c9Census = some (sortDescByCount c9Mid) ∧
    (sortDescByCount c9Mid).filter (fun p => p.2 == (1 : Int)) =
      c9Mid.filter (fun p => p.2 == (1 : Int)) :=
  ⟨by decide, (c9_sorted_stable c9Census c9Mid (by decide)).1,
   (c9_sorted_stable c9Census c9Mid (by decide)).2.2 1⟩

/-- C10: the formatter returns normally only when every census entry
with a nonzero count has a type repr the pattern matches somewhere;
and on the concrete census containing the unmatched repr
`<class Foo>` with count 1, it fails (the unguarded `match[0]`),
so such a run crashes instead of producing a ProfileResult. -/
theorem c10_formatter_requires_matching_reprs :
    (∀ (census : TypeCensus) (p : String × Int),
        format_obj_count census ≠ none → p ∈ census → p.2 ≠ 0 →
        firstTypeMatch p.1.data ≠ none) ∧
    format_obj_count [(badRepr, 1)] = none := by
  constructor
  · intro census p h hp hnz
    intro hm
    apply h
    unfold format_obj_count
    rw [collectEntries_none census p hp hnz hm]
    rfl
  · decide

theorem c10_witness :
    format_obj_count [(intRepr, 1)] ≠ none ∧
    firstTypeMatch intRepr.data ≠ none :=
  ⟨by decide,
   c10_formatter_requires_matching_reprs.1 [(intRepr, 1)] (intRepr, 1)
     (by decide) (by decide) (by decide)⟩
